import Mathlib

/-!
Shallow embedding of the geodns HTTP control plane (src/http/http.go):
bearer-token authorization (`checkToken`), the three zone handlers
(`getZones`, `getZone`, `addZone`) and the filesystem persistence they
perform. Requests are pure values, the registry and the filesystem are
explicit state, and the disk's success or failure per path is an oracle
parameter, so every handler is a pure function from state to state and
response.
-/

namespace GeoDNS

/-- A JSON value, the payload of a Create-or-Replace request body. -/
inductive Json where
  | null : Json
  | bool : Bool → Json
  | num : Int → Json
  | str : String → Json
  | arr : List Json → Json
  | obj : List (String × Json) → Json

/-- A request body: either syntactically malformed bytes (carrying the
message the JSON decoder produces for them) or bytes that parse as the
given JSON value. -/
inductive Body where
  | invalid : String → Body
  | value : Json → Body

/-- gin's `ShouldBindJSON` with a map target, as used at http.go:133:
fails on malformed JSON and on any well-formed JSON whose top level is not
an object; succeeds with the field list of a top-level object. -/
def shouldBindJSON : Body → Except String (List (String × Json))
  | Body.invalid msg => Except.error msg
  | Body.value (Json.obj fields) => Except.ok fields
  | Body.value _ => Except.error ("json: cannot unmarshal non-object into map")

/-- `encoding/json.Marshal` applied to the decoded object (http.go:144).
On a value that itself came out of the JSON decoder, Marshal cannot fail;
the serialized bytes are modelled abstractly by the JSON value they
denote, which keeps serialization deterministic and injective. -/
def jsonMarshal (objmap : List (String × Json)) : Except String Json :=
  Except.ok (Json.obj objmap)

/-- Modelled from the spec: the `zones` package (zones.Zone) is not under
src/. Per the spec's Zone entity contract, a zone is bound to its name and
can absorb a generic document; its registry-visible state reflects the
last absorbed document. -/
structure Zone where
  name : String
  doc : Option (List (String × Json))

/-- Modelled from the spec: `zones.NewZone` constructs a new empty zone
object bound to the given name. -/
def NewZone (name : String) : Zone :=
  { name := name, doc := none }

/-- Modelled from the spec: `zone.ReadZoneJson` (applyDocument) absorbs
the full decoded document into the zone object. -/
def ReadZoneJson (z : Zone) (objmap : List (String × Json)) : Zone :=
  { z with doc := some objmap }

/-- Insert-or-replace for an association list keyed by strings; the model
of an atomic map upsert. -/
def upsert {α : Type} (key : String) (v : α) : List (String × α) → List (String × α)
  | [] => [(key, v)]
  | (k, w) :: rest => if k == key then (key, v) :: rest else (k, w) :: upsert key v rest

/-- Lookup in an association list keyed by strings. -/
def alookup {α : Type} (l : List (String × α)) (key : String) : Option α :=
  (l.find? (fun p => p.1 == key)).map Prod.snd

/-- Modelled from the spec: the Zone Registry (zones.MuxManager, not under
src/) is a concurrency-safe mapping from zone name to zone state offering
atomic lookup, atomic upsert and a point-in-time snapshot of all names;
modelled as an association list. -/
abbrev Registry := List (String × Zone)

/-- A file on disk: its content (serialized bytes, modelled by the JSON
value they encode) and the permission mode it was written with. -/
structure FileEntry where
  content : Json
  mode : Nat

/-- The filesystem: a mapping from path to file. -/
abbrev Fs := List (String × FileEntry)

/-- The disk oracle: for each path, `none` means a write to that path
succeeds, `some e` means it fails with error message `e` (permission
denied, disk full, ...). -/
abbrev Disk := String → Option String

/-- `os.WriteFile` (http.go:153): on success the file at `path` is
created or completely overwritten with `data` and the given mode. -/
def osWriteFile (disk : Disk) (fs : Fs) (path : String) (data : Json) (mode : Nat) :
    Except String Fs :=
  match disk path with
  | some e => Except.error e
  | none => Except.ok (upsert path { content := data, mode := mode } fs)

/-- The result payload carried by a successful response. -/
inductive ResVal where
  | msg : String → ResVal
  | zone : Zone → ResVal
  | names : List String → ResVal

/-- A JSON response: HTTP status plus the gin.H body, which holds the
`success` flag and at most one of `result` / `error`. -/
structure Response where
  status : Nat
  success : Bool
  result : Option ResVal
  error : Option String

/-- The response-shape invariant of §7: `result` is present exactly on
success and `error` exactly on failure, never both fields together. -/
def wellFormed (r : Response) : Prop :=
  r.result.isSome = r.success ∧ r.error.isSome = (!r.success)

/-- The full control-plane state: the zone registry and the filesystem. -/
structure St where
  registry : Registry
  fs : Fs

/-- Whether `pat` occurs as a contiguous substring, scanning like Go's
`strings.Contains`. -/
def containsSub (pat : List Char) : List Char → Bool
  | [] => pat.isEmpty
  | c :: rest => pat.isPrefixOf (c :: rest) || containsSub pat rest

/-- Fuel-indexed worker for `strings.Replace(s, old, "", -1)`: delete
every non-overlapping occurrence of `pat`, scanning left to right. The
fuel is only a structural-termination device; it is called with the
length of the list, which is always enough. -/
def removeAllFuel (pat : List Char) : Nat → List Char → List Char
  | _, [] => []
  | 0, l => l
  | fuel + 1, c :: rest =>
    if pat.isPrefixOf (c :: rest) then
      removeAllFuel pat fuel (List.drop (pat.length - 1) rest)
    else
      c :: removeAllFuel pat fuel rest

/-- Go's `strings.Replace(s, old, "", -1)` as used at http.go:54: remove
every occurrence of `old` from `s`. -/
def stringsRemoveAll (s old : String) : String :=
  String.mk (removeAllFuel old.toList s.toList.length s.toList)

/-- The pattern the authorization gate strips: the literal `Bearer `
(with trailing space). -/
def bearerPat : List Char :=
  ("Bearer ").toList

/-- The authorization gate `checkToken` (http.go:46-64). `none` means the
request proceeds to the handler (`c.Next()`); `some r` means the request
is aborted with response `r` and no handler runs. The header must start
with the literal `Bearer` (no space required), and the token the header
is compared by is the header with every occurrence of `Bearer ` deleted
(`strings.Replace` with count -1). -/
def checkToken (configToken authHeader : String) : Option Response :=
  if ("Bearer").toList.isPrefixOf authHeader.toList = false then
    some { status := 401, success := false, result := none,
           error := some ("Authorization header is missing") }
  else if stringsRemoveAll authHeader ("Bearer ") ≠ configToken then
    some { status := 401, success := false, result := none,
           error := some ("Unauthorized (401)") }
  else
    none

/-- The List Zones handler `getZones` (http.go:98-109): snapshot the
registry's keys, delete the reserved sentinel `pgeodns`, respond 200. -/
def getZones (st : St) : St × Response :=
  let keys := st.registry.map Prod.fst
  let keys2 := keys.filter (fun key => !(key == "pgeodns"))
  (st, { status := 200, success := true, result := some (ResVal.names keys2), error := none })

/-- The Get Zone handler `getZone` (http.go:111-125): look the name up in
the registry; 200 with the zone when present, 404 otherwise. -/
def getZone (st : St) (zoneName : String) : St × Response :=
  match alookup st.registry zoneName with
  | some zone =>
      (st, { status := 200, success := true, result := some (ResVal.zone zone), error := none })
  | none =>
      (st, { status := 404, success := false, result := none,
             error := some ("Zone not found") })

/-- The Create-or-Replace handler `addZone` (http.go:127-167): look up or
create the zone object, decode the body, absorb the document, marshal it,
write the file at `zonePath ++ zoneName ++ ".json"` with mode 0644, and
only then publish the zone into the registry; each failure returns 400
with the error and leaves the state as it was. -/
def addZone (disk : Disk) (st : St) (zonePath zoneName : String) (body : Body) :
    St × Response :=
  let zone := match alookup st.registry zoneName with
    | some z => z
    | none => NewZone zoneName
  match shouldBindJSON body with
  | Except.error e =>
      (st, { status := 400, success := false, result := none, error := some e })
  | Except.ok objmap =>
    let zone2 := ReadZoneJson zone objmap
    match jsonMarshal objmap with
    | Except.error e =>
        (st, { status := 400, success := false, result := none, error := some e })
    | Except.ok data =>
      match osWriteFile disk st.fs (zonePath ++ zoneName ++ ".json") data 0o644 with
      | Except.error e =>
          (st, { status := 400, success := false, result := none, error := some e })
      | Except.ok fs2 =>
          ({ registry := upsert zoneName zone2 st.registry, fs := fs2 },
           { status := 200, success := true,
             result := some (ResVal.msg ("Zone created successfully")), error := none })

/-- Durability invariant of the write-then-publish order: every zone
visible through the registry that has absorbed a document has a durable
copy of that document on disk at its zone file path. -/
def durable (zonePath : String) (st : St) : Prop :=
  ∀ name z doc, alookup st.registry name = some z → z.doc = some doc →
    ∃ m, alookup st.fs (zonePath ++ name ++ ".json") =
      some { content := Json.obj doc, mode := m }

theorem alookup_cons_self {α : Type} (k : String) (v : α) (rest : List (String × α)) :
    alookup ((k, v) :: rest) k = some v := by
  simp [alookup, List.find?]

theorem alookup_cons_ne {α : Type} (k' : String) (w : α) (rest : List (String × α))
    (k : String) (h : k' ≠ k) :
    alookup ((k', w) :: rest) k = alookup rest k := by
  have hb : (k' == k) = false := beq_eq_false_iff_ne.mpr h
  simp [alookup, List.find?, hb]

theorem alookup_upsert_self {α : Type} (l : List (String × α)) (k : String) (v : α) :
    alookup (upsert k v l) k = some v := by
  induction l with
  | nil => simp [upsert, alookup, List.find?]
  | cons p rest ih =>
    obtain ⟨k', w⟩ := p
    by_cases h : k' = k
    · subst h
      simp [upsert, alookup, List.find?]
    · simpa [upsert, h, alookup_cons_ne k' w _ k h] using ih

theorem alookup_upsert_ne {α : Type} (l : List (String × α)) (k k' : String) (v : α)
    (h : k' ≠ k) :
    alookup (upsert k v l) k' = alookup l k' := by
  induction l with
  | nil =>
    have hb : (k == k') = false := beq_eq_false_iff_ne.mpr (Ne.symm h)
    simp [upsert, alookup, List.find?, hb]
  | cons p rest ih =>
    obtain ⟨k₀, w⟩ := p
    by_cases h0 : k₀ = k
    · have e1 : upsert k v ((k₀, w) :: rest) = (k, v) :: rest := by
        simp [upsert, h0]
      have hk0 : k₀ ≠ k' := by rw [h0]; exact Ne.symm h
      rw [e1, alookup_cons_ne k v rest k' (Ne.symm h), alookup_cons_ne k₀ w rest k' hk0]
    · by_cases h1 : k₀ = k'
      · subst h1
        simp [upsert, h0, alookup_cons_self]
      · simpa [upsert, h0, alookup_cons_ne k₀ w _ k' h1] using ih

theorem upsert_upsert_same {α : Type} (l : List (String × α)) (k : String) (v : α) :
    upsert k v (upsert k v l) = upsert k v l := by
  induction l with
  | nil => simp [upsert]
  | cons p rest ih =>
    obtain ⟨k', w⟩ := p
    by_cases h : k' = k
    · subst h
      simp [upsert]
    · simp [upsert, h, ih]

theorem isPrefixOf_append_self (l₁ l₂ : List Char) : l₁.isPrefixOf (l₁ ++ l₂) = true := by
  induction l₁ with
  | nil => simp [List.isPrefixOf]
  | cons p ps ih => simp [List.isPrefixOf, ih]

theorem removeAllFuel_congrFuel (pat : List Char) :
    ∀ f₁ f₂ l, l.length ≤ f₁ → l.length ≤ f₂ →
      removeAllFuel pat f₁ l = removeAllFuel pat f₂ l := by
  intro f₁
  induction f₁ with
  | zero =>
    intro f₂ l h₁ h₂
    have : l = [] := List.eq_nil_of_length_eq_zero (Nat.le_zero.mp h₁)
    subst this
    simp [removeAllFuel]
  | succ f ih =>
    intro f₂ l h₁ h₂
    match l with
    | [] => simp [removeAllFuel]
    | c :: rest =>
      match f₂ with
      | 0 => exact absurd h₂ (by simp)
      | f₂' + 1 =>
        simp only [removeAllFuel]
        by_cases hc : pat.isPrefixOf (c :: rest) = true
        · rw [if_pos hc, if_pos hc]
          have hlen : (List.drop (pat.length - 1) rest).length ≤ rest.length := by
            simp [List.length_drop]
          exact ih _ _ (le_trans hlen (by simpa using h₁))
            (le_trans hlen (by simpa using h₂))
        · rw [if_neg hc, if_neg hc]
          have h₁' : rest.length ≤ f := by simpa using h₁
          have h₂' : rest.length ≤ f₂' := by simpa using h₂
          rw [ih _ _ h₁' h₂']

theorem removeAllFuel_strip (pat l : List Char) (hne : pat ≠ []) (f : Nat)
    (hf : (pat ++ l).length ≤ f) :
    removeAllFuel pat f (pat ++ l) = removeAllFuel pat f l := by
  match pat, hne with
  | p :: ps, _ =>
    match f with
    | 0 => exact absurd hf (by simp)
    | f' + 1 =>
      have hcons : (p :: ps) ++ l = p :: (ps ++ l) := rfl
      rw [hcons]
      simp only [removeAllFuel]
      have hpre : (p :: ps).isPrefixOf (p :: (ps ++ l)) = true :=
        isPrefixOf_append_self (p :: ps) l
      rw [if_pos hpre]
      have hdrop : List.drop ((p :: ps).length - 1) (ps ++ l) = l := by
        simp only [List.length_cons, Nat.add_sub_cancel]
        exact List.drop_left ps l
      rw [hdrop]
      have hl1 : l.length ≤ f' := by
        have : (p :: ps ++ l).length ≤ f' + 1 := by simpa using hf
        simp only [List.length_cons, List.length_append] at this
        omega
      exact removeAllFuel_congrFuel (p :: ps) f' (f' + 1) l hl1 (Nat.le_succ_of_le hl1)

theorem removeAllFuel_of_not_contains (pat : List Char) :
    ∀ l f, containsSub pat l = false → l.length ≤ f → removeAllFuel pat f l = l := by
  intro l
  induction l with
  | nil => intro f _ _; simp [removeAllFuel]
  | cons c rest ih =>
    intro f hc hf
    simp only [containsSub, Bool.or_eq_false_iff] at hc
    match f with
    | 0 => exact absurd hf (by simp)
    | f' + 1 =>
      simp only [removeAllFuel]
      rw [if_neg (by simp [hc.1])]
      rw [ih f' hc.2 (by simpa using hf)]

theorem stringsRemoveAll_bearer (T' : String)
    (h : containsSub bearerPat T'.toList = false) :
    stringsRemoveAll ("Bearer " ++ T') ("Bearer ") = T' := by
  have htl : ("Bearer " ++ T').toList = bearerPat ++ T'.toList := rfl
  show String.mk (removeAllFuel bearerPat ("Bearer " ++ T').toList.length
    ("Bearer " ++ T').toList) = T'
  rw [htl]
  rw [removeAllFuel_strip bearerPat T'.toList (by decide) _ (le_refl _)]
  rw [removeAllFuel_of_not_contains bearerPat T'.toList _ h
    (by rw [List.length_append]; exact Nat.le_add_left _ _)]
  cases T'
  rfl

/-- Claim C2 counterexample: the gate does not implement exact-match
bearer comparison for every token. Token `aBearer b`, presented exactly as
`Bearer aBearer b` (prefix used, credential equal to the token), is
rejected; conversely header `Bearer Bearer secret`, whose credential
`Bearer secret` differs from the configured token `secret`, is accepted. -/
theorem checkToken_counterexample :
    (checkToken ("aBearer b") ("Bearer " ++ "aBearer b")).isSome = true ∧
    checkToken ("secret") ("Bearer " ++ "Bearer secret") = none ∧
    ("Bearer secret" : String) ≠ "secret" := by
  refine ⟨rfl, rfl, ?_⟩
  decide

/-- Claim C2 (amended): the gate passes exactly when the header starts
with `Bearer` and deleting every occurrence of `Bearer ` from the header
yields the configured token; hence for canonical headers `Bearer T'` with
neither the configured token nor the presented credential containing the
substring `Bearer `, it passes iff the credential equals the token, and
every rejection is a 401 failure with no result, aborting before any
handler. -/
theorem checkToken_exact_match (T T' header : String)
    (hT' : containsSub bearerPat T'.toList = false) :
    (checkToken T ("Bearer " ++ T') = none ↔ T' = T) ∧
    (∀ r, checkToken T header = some r →
      r.status = 401 ∧ r.success = false ∧ r.result = none) := by
  constructor
  · have hpre : (("Bearer").toList.isPrefixOf ("Bearer " ++ T').toList) = true := by
      have h1 : ("Bearer " ++ T').toList = ("Bearer").toList ++ (' ' :: T'.toList) := rfl
      rw [h1]
      exact isPrefixOf_append_self _ _
    have hrm := stringsRemoveAll_bearer T' hT'
    by_cases he : T' = T
    · subst he
      simp [checkToken, hpre, hrm]
    · simp [checkToken, hpre, hrm, he]
  · intro r hr
    unfold checkToken at hr
    split at hr
    · cases hr
      exact ⟨rfl, rfl, rfl⟩
    · split at hr
      · cases hr
        exact ⟨rfl, rfl, rfl⟩
      · cases hr

/-- Claim C2 witness: the configured token `secret` presented as
`Bearer secret` passes the gate. -/
theorem checkToken_exact_match_witness :
    checkToken ("secret") ("Bearer " ++ "secret") = none :=
  ((checkToken_exact_match ("secret") ("secret") ("") (by decide)).1).mpr rfl

theorem addZone_success_eq (disk : Disk) (st : St) (zonePath zoneName : String)
    (body : Body) (doc : List (String × Json)) (z0 : Zone)
    (hzone : (match alookup st.registry zoneName with
      | some z => z
      | none => NewZone zoneName) = z0)
    (hbody : shouldBindJSON body = Except.ok doc)
    (hdisk : disk (zonePath ++ zoneName ++ ".json") = none) :
    addZone disk st zonePath zoneName body =
      ({ registry := upsert zoneName (ReadZoneJson z0 doc) st.registry,
         fs := upsert (zonePath ++ zoneName ++ ".json")
           { content := Json.obj doc, mode := 0o644 } st.fs },
       { status := 200, success := true,
         result := some (ResVal.msg ("Zone created successfully")), error := none }) := by
  subst hzone
  simp [addZone, hbody, jsonMarshal, osWriteFile, hdisk]

theorem zoneFile_inj (p a b : String)
    (h : (p ++ a ++ ".json" : String) = p ++ b ++ ".json") : a = b := by
  have hd : p.data ++ a.data ++ (".json").data = p.data ++ b.data ++ (".json").data :=
    congrArg String.data h
  have h2 := List.append_cancel_right hd
  have h3 := List.append_cancel_left h2
  cases a; cases b; cases h3; rfl

/-- Claim C1: when the persistence write fails, Create-or-Replace answers
400 with the write error and changes neither the registry nor the
filesystem, whether or not a zone of that name already existed; and
regardless of the request's outcome, the write-then-publish order
preserves the invariant that every registry-visible zone with an absorbed
document has a durable copy of it on disk. -/
theorem addZone_write_failure (disk : Disk) (st : St) (zonePath zoneName : String)
    (body : Body) :
    (∀ doc err, shouldBindJSON body = Except.ok doc →
      disk (zonePath ++ zoneName ++ ".json") = some err →
      addZone disk st zonePath zoneName body =
        (st, { status := 400, success := false, result := none, error := some err })) ∧
    (durable zonePath st → durable zonePath (addZone disk st zonePath zoneName body).1) := by
  constructor
  · intro doc err h1 h2
    simp [addZone, h1, jsonMarshal, osWriteFile, h2]
  · intro hd
    rcases hb : shouldBindJSON body with e | doc
    · simpa [addZone, hb] using hd
    · rcases hdk : disk (zonePath ++ zoneName ++ ".json") with _ | e
      · rw [addZone_success_eq disk st zonePath zoneName body doc _ rfl hb hdk]
        intro name z doc' hlz hdoc
        by_cases hn : name = zoneName
        · subst hn
          rw [alookup_upsert_self] at hlz
          cases hlz
          simp only [ReadZoneJson] at hdoc
          cases hdoc
          exact ⟨0o644, alookup_upsert_self _ _ _⟩
        · rw [alookup_upsert_ne _ _ _ _ hn] at hlz
          obtain ⟨m, hm⟩ := hd name z doc' hlz hdoc
          refine ⟨m, ?_⟩
          have hpath : (zonePath ++ name ++ ".json" : String) ≠
              zonePath ++ zoneName ++ ".json" := by
            intro hcontra
            exact hn (zoneFile_inj zonePath name zoneName hcontra)
          rw [alookup_upsert_ne _ _ _ _ hpath]
          exact hm
      · simpa [addZone, hb, jsonMarshal, osWriteFile, hdk] using hd

/-- Claim C1 witness: with an empty registry and a disk that always
fails, posting a valid object yields 400 with the disk error and the
state is untouched; the durability invariant is preserved. -/
theorem addZone_write_failure_witness :
    addZone (fun _ => some ("disk full")) { registry := [], fs := [] }
        ("zones/") ("example.com") (Body.value (Json.obj [])) =
      ({ registry := [], fs := [] },
       { status := 400, success := false, result := none,
         error := some ("disk full") }) :=
  (addZone_write_failure (fun _ => some ("disk full")) { registry := [], fs := [] }
      ("zones/") ("example.com") (Body.value (Json.obj []))).1 [] ("disk full") rfl rfl

/-- Claim C3: a Create-or-Replace body that fails to decode as a JSON
object yields 400 carrying the decode error, and the registry and the
filesystem are left completely unchanged. -/
theorem addZone_decode_failure (disk : Disk) (st : St) (zonePath zoneName : String)
    (body : Body) (err : String) (h : shouldBindJSON body = Except.error err) :
    addZone disk st zonePath zoneName body =
      (st, { status := 400, success := false, result := none, error := some err }) := by
  simp [addZone, h]

/-- Claim C3 witness: posting a JSON array decodes to a non-object error,
returns 400 with that error, and leaves the empty state unchanged. -/
theorem addZone_decode_failure_witness :
    addZone (fun _ => none) { registry := [], fs := [] } ("zones/") ("example.com")
        (Body.value (Json.arr [])) =
      ({ registry := [], fs := [] },
       { status := 400, success := false, result := none,
         error := some ("json: cannot unmarshal non-object into map") }) :=
  addZone_decode_failure (fun _ => none) { registry := [], fs := [] } ("zones/")
    ("example.com") (Body.value (Json.arr []))
    ("json: cannot unmarshal non-object into map") rfl

/-- Claim C4: a Create-or-Replace that completes successfully responds
200 with result `Zone created successfully`, the file at the expected
path holds exactly the posted document (with mode 0644), and the registry
holds, under that name, a zone that has absorbed the posted document; both
hold together in the state in which the response is produced. -/
theorem addZone_success_contract (disk : Disk) (st : St) (zonePath zoneName : String)
    (body : Body) (doc : List (String × Json))
    (hbody : shouldBindJSON body = Except.ok doc)
    (hdisk : disk (zonePath ++ zoneName ++ ".json") = none) :
    (addZone disk st zonePath zoneName body).2 =
      { status := 200, success := true,
        result := some (ResVal.msg ("Zone created successfully")), error := none } ∧
    alookup (addZone disk st zonePath zoneName body).1.fs
        (zonePath ++ zoneName ++ ".json") =
      some { content := Json.obj doc, mode := 0o644 } ∧
    ∃ z, alookup (addZone disk st zonePath zoneName body).1.registry zoneName = some z ∧
      z.doc = some doc := by
  rw [addZone_success_eq disk st zonePath zoneName body doc _ rfl hbody hdisk]
  exact ⟨rfl, alookup_upsert_self _ _ _, _, alookup_upsert_self _ _ _, rfl⟩

/-- Claim C4 witness: posting the document with field list
`records := []` for `example.com` on an empty state succeeds with the
contracted response, file and registry entry. -/
theorem addZone_success_contract_witness :
    (addZone (fun _ => none) { registry := [], fs := [] } ("zones/") ("example.com")
        (Body.value (Json.obj [("records", Json.arr [])]))).2 =
      { status := 200, success := true,
        result := some (ResVal.msg ("Zone created successfully")), error := none } :=
  (addZone_success_contract (fun _ => none) { registry := [], fs := [] } ("zones/")
      ("example.com") (Body.value (Json.obj [("records", Json.arr [])]))
      [("records", Json.arr [])] rfl rfl).1

/-- Claim C5: List Zones succeeds for every registry state with exactly
the registry snapshot's names minus the reserved sentinel `pgeodns`,
which never appears in the result, and the state is unchanged. -/
theorem getZones_spec (st : St) :
    (getZones st).1 = st ∧
    (getZones st).2.status = 200 ∧
    (getZones st).2.success = true ∧
    (getZones st).2.error = none ∧
    ∃ ns, (getZones st).2.result = some (ResVal.names ns) ∧
      ("pgeodns" : String) ∉ ns ∧
      ∀ name, name ∈ ns ↔ (name ∈ st.registry.map Prod.fst ∧ name ≠ "pgeodns") := by
  refine ⟨rfl, rfl, rfl, rfl,
    (st.registry.map Prod.fst).filter (fun key => !(key == "pgeodns")), rfl, ?_, ?_⟩
  · simp [List.mem_filter]
  · intro name
    simp [List.mem_filter]

/-- Claim C6: Get Zone returns 200 with the stored in-memory zone when
the name is in the registry and 404 with error `Zone not found` when it
is not, and in every case the registry and filesystem are untouched. -/
theorem getZone_spec (st : St) (zoneName : String) :
    (getZone st zoneName).1 = st ∧
    (∀ z, alookup st.registry zoneName = some z →
      (getZone st zoneName).2 =
        { status := 200, success := true,
          result := some (ResVal.zone z), error := none }) ∧
    (alookup st.registry zoneName = none →
      (getZone st zoneName).2 =
        { status := 404, success := false, result := none,
          error := some ("Zone not found") }) := by
  refine ⟨?_, ?_, ?_⟩
  · rcases h : alookup st.registry zoneName with _ | z <;> simp [getZone, h]
  · intro z hz
    simp [getZone, hz]
  · intro hz
    simp [getZone, hz]

/-- Claim C6 witness: getting `example.com` from the empty registry
answers 404 `Zone not found`. -/
theorem getZone_spec_witness :
    (getZone { registry := [], fs := [] } ("example.com")).2 =
      { status := 404, success := false, result := none,
        error := some ("Zone not found") } :=
  (getZone_spec { registry := [], fs := [] } ("example.com")).2.2 rfl

/-- Claim C7: Create-or-Replace is idempotent: posting the same document
twice to the same name leaves, after the second call, exactly the state
(file bytes and registry-visible zone) and response of the first call. -/
theorem addZone_idempotent (disk : Disk) (st : St) (zonePath zoneName : String)
    (body : Body) (doc : List (String × Json))
    (hbody : shouldBindJSON body = Except.ok doc)
    (hdisk : disk (zonePath ++ zoneName ++ ".json") = none) :
    addZone disk (addZone disk st zonePath zoneName body).1 zonePath zoneName body =
      addZone disk st zonePath zoneName body := by
  simp only [addZone_success_eq disk st zonePath zoneName body doc _ rfl hbody hdisk]
  rw [addZone_success_eq disk _ zonePath zoneName body doc
    (ReadZoneJson (match alookup st.registry zoneName with
      | some z => z
      | none => NewZone zoneName) doc)
    (by rw [alookup_upsert_self]) hbody hdisk]
  rw [show ∀ z : Zone, ReadZoneJson (ReadZoneJson z doc) doc = ReadZoneJson z doc from
    fun z => rfl]
  rw [upsert_upsert_same, upsert_upsert_same]

/-- Claim C7 witness: posting `records := []` twice for `example.com`
from the empty state gives the same state and response both times. -/
theorem addZone_idempotent_witness :
    addZone (fun _ => none)
        (addZone (fun _ => none) { registry := [], fs := [] } ("zones/")
          ("example.com") (Body.value (Json.obj [("records", Json.arr [])]))).1
        ("zones/") ("example.com") (Body.value (Json.obj [("records", Json.arr [])])) =
      addZone (fun _ => none) { registry := [], fs := [] } ("zones/")
        ("example.com") (Body.value (Json.obj [("records", Json.arr [])])) :=
  addZone_idempotent (fun _ => none) { registry := [], fs := [] } ("zones/")
    ("example.com") (Body.value (Json.obj [("records", Json.arr [])]))
    [("records", Json.arr [])] rfl rfl

/-- Claim C8: every response any control-plane path produces — the two
authorization rejections, list, get found and not-found, create success
and each create failure branch — carries the success flag with exactly
one of `result` (iff success) or `error` (iff failure). -/
theorem responses_well_formed (tok header zonePath zoneName : String) (st : St)
    (body : Body) (disk : Disk) :
    (∀ r, checkToken tok header = some r → wellFormed r) ∧
    wellFormed (getZones st).2 ∧
    wellFormed (getZone st zoneName).2 ∧
    wellFormed (addZone disk st zonePath zoneName body).2 := by
  refine ⟨?_, ⟨rfl, rfl⟩, ?_, ?_⟩
  · intro r hr
    unfold checkToken at hr
    split at hr
    · cases hr
      exact ⟨rfl, rfl⟩
    · split at hr
      · cases hr
        exact ⟨rfl, rfl⟩
      · cases hr
  · rcases h : alookup st.registry zoneName with _ | z <;>
      simp [getZone, h, wellFormed]
  · rcases hb : shouldBindJSON body with e | doc
    · simp [addZone, hb, wellFormed]
    · rcases hdk : disk (zonePath ++ zoneName ++ ".json") with _ | e
      · simp [addZone, hb, hdk, jsonMarshal, osWriteFile, wellFormed]
      · simp [addZone, hb, hdk, jsonMarshal, osWriteFile, wellFormed]

/-- Claim C8 witness: the missing-header rejection response is well
formed. -/
theorem responses_well_formed_witness :
    wellFormed { status := 401, success := false, result := none,
                 error := some ("Authorization header is missing") } :=
  (responses_well_formed ("t") ("") ("zones/") ("example.com")
      { registry := [], fs := [] } (Body.invalid ("x")) (fun _ => none)).1
    { status := 401, success := false, result := none,
      error := some ("Authorization header is missing") } rfl

/-- Claim C10: the persisted path is the plain concatenation of the
configured storage path, the zone name and `.json`, with no separator
inserted, written with fixed mode 0644; a storage path lacking a trailing
separator therefore addresses a different file. -/
theorem addZone_path_and_mode (disk : Disk) (st : St) (zonePath zoneName : String)
    (body : Body) (doc : List (String × Json))
    (hbody : shouldBindJSON body = Except.ok doc)
    (hdisk : disk (zonePath ++ zoneName ++ ".json") = none) :
    (addZone disk st zonePath zoneName body).1.fs =
      upsert (zonePath ++ zoneName ++ ".json")
        { content := Json.obj doc, mode := 0o644 } st.fs ∧
    ("zones" ++ "example.com" ++ ".json" : String) ≠
      "zones/" ++ "example.com" ++ ".json" := by
  refine ⟨?_, by decide⟩
  rw [addZone_success_eq disk st zonePath zoneName body doc _ rfl hbody hdisk]

/-- Claim C10 witness: on a successful post the filesystem gains exactly
the entry at the concatenated path with mode 0644. -/
theorem addZone_path_and_mode_witness :
    (addZone (fun _ => none) { registry := [], fs := [] } ("zones") ("example.com")
        (Body.value (Json.obj []))).1.fs =
      upsert ("zones" ++ "example.com" ++ ".json")
        { content := Json.obj [], mode := 0o644 } [] :=
  (addZone_path_and_mode (fun _ => none) { registry := [], fs := [] } ("zones")
      ("example.com") (Body.value (Json.obj [])) [] rfl rfl).1

end GeoDNS
